import Mathlib

/-!
Shallow embedding of the RustyConsoleGameEngine core (`src/lib.rs`):
the screen buffer and rasterization primitives, the sprite data model and
its binary serialization, the keyboard/mouse edge-detection state machine,
and the audio worker's command handling and chunk mixing.

Machine integers are modelled as `Nat`/`Int` with explicit `% 2 ^ 64`
(usize) or wrapping adjustments where the Rust code can overflow
(release-mode wrapping semantics).  Fallible operations return `Option`
or an explicit result type whose `panic` constructor models a Rust panic
(out-of-range index / failed allocation).
-/

namespace RustyCGE

/-- Rust `CHAR_INFO` cell as used by the engine: `Char.UnicodeChar` (u16 glyph)
and `Attributes` (u16 color). -/
structure Cell where
  glyph : Nat
  color : Nat
deriving DecidableEq, Repr

/-- Drawing-relevant state of `ConsoleGameEngine`: `screen_width`/`screen_height`
(as `i32`, via `screen_width()`/`screen_height()`) and the row-major
`window_buffer`. -/
structure Screen where
  width : Int
  height : Int
  buffer : List Cell
deriving DecidableEq, Repr

/-- Coordinate pair lies inside the screen, exactly the guard of
`ConsoleGameEngine::draw_with` (lib.rs:1838). -/
def Screen.inBounds (e : Screen) (x y : Int) : Prop :=
  0 ≤ x ∧ x < e.width ∧ 0 ≤ y ∧ y < e.height

instance (e : Screen) (x y : Int) : Decidable (e.inBounds x y) := by
  unfold Screen.inBounds; infer_instance

/-- Cell stored at `(x, y)` in row-major order (index `y * width + x`). -/
def Screen.cellAt (e : Screen) (x y : Int) : Cell :=
  e.buffer.getD (y * e.width + x).toNat ⟨0, 0⟩

/-- Rust `ConsoleGameEngine::draw_with` (lib.rs:1837-1843): single-cell write,
bounds-checked; out-of-range coordinates write nothing.  Under the engine
invariant `buffer.length = width * height` the computed index is in range and
`List.set` is exactly the Rust store. -/
def drawWith (e : Screen) (x y : Int) (c col : Nat) : Screen :=
  if 0 ≤ x ∧ x < e.width ∧ 0 ≤ y ∧ y < e.height then
    { e with buffer := e.buffer.set (y * e.width + x).toNat ⟨c, col⟩ }
  else e

/-- Rust `as usize` cast of a signed value (64-bit target): value modulo `2 ^ 64`. -/
def usizeOf (z : Int) : Nat := (z % (2 : Int) ^ 64).toNat

/-- Write loop of `ConsoleGameEngine::draw_string_with` (lib.rs:1863-1869):
stores each UTF-16 unit at the unchecked index
`(y as usize) * (screen_width as usize) + (x as usize + i)`.
Returns `none` when the index is out of range, modelling the Rust
index-out-of-bounds panic.  usize arithmetic wraps modulo `2 ^ 64`. -/
def writeString (w col xu yu : Nat) : Nat → List Nat → List Cell → Option (List Cell)
  | _, [], buf => some buf
  | i, ch :: rest, buf =>
    let idx := (yu * w + (xu + i)) % 2 ^ 64
    if idx < buf.length then writeString w col xu yu (i + 1) rest (buf.set idx ⟨ch, col⟩)
    else none

/-- Rust `ConsoleGameEngine::draw_string_with` (lib.rs:1863): `text` is the
list of UTF-16 code units of the string. -/
def drawStringWith (e : Screen) (x y : Int) (text : List Nat) (col : Nat) : Option Screen :=
  (writeString (usizeOf e.width) col (usizeOf x) (usizeOf y) 0 text e.buffer).map
    fun buf => { e with buffer := buf }

/-- Write loop of `ConsoleGameEngine::draw_string_alpha_with` (lib.rs:1877-1885):
identical to `writeString` but UTF-16 unit 32 (space) is skipped. -/
def writeStringAlpha (w col xu yu : Nat) : Nat → List Nat → List Cell → Option (List Cell)
  | _, [], buf => some buf
  | i, ch :: rest, buf =>
    if ch = 32 then writeStringAlpha w col xu yu (i + 1) rest buf
    else
      let idx := (yu * w + (xu + i)) % 2 ^ 64
      if idx < buf.length then
        writeStringAlpha w col xu yu (i + 1) rest (buf.set idx ⟨ch, col⟩)
      else none

/-- Rust `ConsoleGameEngine::draw_string_alpha_with` (lib.rs:1877). -/
def drawStringAlphaWith (e : Screen) (x y : Int) (text : List Nat) (col : Nat) : Option Screen :=
  (writeStringAlpha (usizeOf e.width) col (usizeOf x) (usizeOf y) 0 text e.buffer).map
    fun buf => { e with buffer := buf }

/-- Major-axis-x loop of `ConsoleGameEngine::draw_line_with` (lib.rs:1905-1918),
`while x < xe`; the fuel argument is `(xe - x).toNat`, which counts the loop
iterations exactly since `x` increases by one per iteration. -/
def lineLoopX (c col : Nat) (dx dy dx1 dy1 : Int) : Nat → Screen → Int → Int → Int → Screen
  | 0, e, _, _, _ => e
  | n + 1, e, x, y, px =>
    let x2 := x + 1
    if px < 0 then
      lineLoopX c col dx dy dx1 dy1 n (drawWith e x2 y c col) x2 y (px + 2 * dy1)
    else
      let y2 := if (dx < 0 ∧ dy < 0) ∨ (dx > 0 ∧ dy > 0) then y + 1 else y - 1
      lineLoopX c col dx dy dx1 dy1 n (drawWith e x2 y2 c col) x2 y2 (px + 2 * (dy1 - dx1))

/-- Major-axis-y loop of `ConsoleGameEngine::draw_line_with` (lib.rs:1923-1936),
`while y < ye`; note the asymmetric decision test `py <= 0` from the source. -/
def lineLoopY (c col : Nat) (dx dy dx1 dy1 : Int) : Nat → Screen → Int → Int → Int → Screen
  | 0, e, _, _, _ => e
  | n + 1, e, x, y, py =>
    let y2 := y + 1
    if py ≤ 0 then
      lineLoopY c col dx dy dx1 dy1 n (drawWith e x y2 c col) x y2 (py + 2 * dx1)
    else
      let x2 := if (dx < 0 ∧ dy < 0) ∨ (dx > 0 ∧ dy > 0) then x + 1 else x - 1
      lineLoopY c col dx dy dx1 dy1 n (drawWith e x2 y2 c col) x2 y2 (py + 2 * (dx1 - dy1))

/-- Rust `ConsoleGameEngine::draw_line_with` (lib.rs:1893-1938): integer
Bresenham with major-axis selection and sign-agreement minor stepping. -/
def drawLineWith (e : Screen) (x1 y1 x2 y2 : Int) (c col : Nat) : Screen :=
  let dx := x2 - x1
  let dy := y2 - y1
  let dx1 := (dx.natAbs : Int)
  let dy1 := (dy.natAbs : Int)
  let px := 2 * dy1 - dx1
  let py := 2 * dx1 - dy1
  if dy1 ≤ dx1 then
    let s := if dx ≥ 0 then (x1, y1, x2) else (x2, y2, x1)
    let e2 := drawWith e s.1 s.2.1 c col
    lineLoopX c col dx dy dx1 dy1 (s.2.2 - s.1).toNat e2 s.1 s.2.1 px
  else
    let s := if dy ≥ 0 then (x1, y1, y2) else (x2, y2, y1)
    let e2 := drawWith e s.1 s.2.1 c col
    lineLoopY c col dx dy dx1 dy1 (s.2.2 - s.2.1).toNat e2 s.1 s.2.1 py

/-- Horizontal-span closure of `ConsoleGameEngine::fill_triangle_with`
(lib.rs:1983-1987): `for i in sx..=ex { draw_with(i, y) }`.  The fuel is
`(ex + 1 - sx).toNat`, the exact iteration count. -/
def spanLoop (c col : Nat) (y : Int) : Nat → Screen → Int → Screen
  | 0, e, _ => e
  | n + 1, e, i => spanLoop c col y n (drawWith e i y c col) (i + 1)

/-- Draws the inclusive horizontal span `[sx, ex]` at row `y`. -/
def drawSpan (e : Screen) (sx ex y : Int) (c col : Nat) : Screen :=
  spanLoop c col y (ex + 1 - sx).toNat e sx

/-- Top-half loop of `fill_triangle_with` (lib.rs:2019-2035), `while i < dx1`:
draws the current span, then advances `y` and conditionally `t1x`, `t2x`.
Returns the final `(screen, t2x, y)` consumed by the bottom half. -/
def triTopLoop (c col : Nat) (signx1 signx2 : Int) (changed1 changed2 : Bool) :
    Nat → Screen → Int → Int → Int → Screen × Int × Int
  | 0, e, _, t2x, y => (e, t2x, y)
  | n + 1, e, t1x, t2x, y =>
    let e2 := drawSpan e (min t1x t2x) (max t1x t2x) y c col
    triTopLoop c col signx1 signx2 changed1 changed2 n e2
      (if changed1 then t1x + signx1 else t1x)
      (if changed2 then t2x + signx2 else t2x)
      (y + 1)

/-- Bottom-half loop of `fill_triangle_with` (lib.rs:2043-2059), `while y <= y3`;
the trailing `if y > y3 { break }` coincides with the loop condition.  The fuel
is `(y3 + 1 - y).toNat`, the exact iteration count. -/
def triBotLoop (c col : Nat) (signx1 signx2 : Int) (changed1 changed2 : Bool) :
    Nat → Screen → Int → Int → Int → Screen
  | 0, e, _, _, _ => e
  | n + 1, e, t1x, t2x, y =>
    let e2 := drawSpan e (min t1x t2x) (max t1x t2x) y c col
    triBotLoop c col signx1 signx2 changed1 changed2 n e2
      (if changed1 then t1x + signx1 else t1x)
      (if changed2 then t2x + signx2 else t2x)
      (y + 1)

/-- Rust `ConsoleGameEngine::fill_triangle_with` (lib.rs:1970-2060): sorts the
vertices by `y`, then runs the two half loops.  Note that the source advances
`t1x`/`t2x` only when the corresponding edge satisfies `dy > dx` (no error
accumulation is present in the code). -/
def fillTriangleWith (e : Screen) (ax1 ay1 ax2 ay2 ax3 ay3 : Int) (c col : Nat) : Screen :=
  let s1 := if ay1 > ay2 then (ax2, ay2, ax1, ay1) else (ax1, ay1, ax2, ay2)
  let x1 := s1.1
  let y1 := s1.2.1
  let x2 := s1.2.2.1
  let y2 := s1.2.2.2
  let s2 := if y1 > ay3 then (ax3, ay3, x1, y1) else (x1, y1, ax3, ay3)
  let x1 := s2.1
  let y1 := s2.2.1
  let x3 := s2.2.2.1
  let y3 := s2.2.2.2
  let s3 := if y2 > y3 then (x3, y3, x2, y2) else (x2, y2, x3, y3)
  let x2 := s3.1
  let y2 := s3.2.1
  let x3 := s3.2.2.1
  let y3 := s3.2.2.2
  let t1x := x1
  let t2x := x1
  let y := y1
  let dx1 := x2 - x1
  let signx1 : Int := if dx1 < 0 then -1 else 1
  let dx1 := (dx1.natAbs : Int)
  let dy1 := y2 - y1
  let dx2 := x3 - x1
  let signx2 : Int := if dx2 < 0 then -1 else 1
  let dx2 := (dx2.natAbs : Int)
  let dy2 := y3 - y1
  let changed1 := decide (dy1 > dx1)
  let changed2 := decide (dy2 > dx2)
  let top :=
    if y1 ≠ y2 then
      triTopLoop c col signx1 signx2 changed1 changed2 dx1.toNat e t1x t2x y
    else (e, t2x, y)
  let eTop := top.1
  let t2xb := top.2.1
  let yb := top.2.2
  let dx1b := ((x3 - x2).natAbs : Int)
  let dy1b := y3 - y2
  let signx1b : Int := if x3 - x2 < 0 then -1 else 1
  let changed1b := decide (dy1b > dx1b)
  triBotLoop c col signx1b signx2 changed1b changed2 (y3 + 1 - yb).toNat eTop x2 t2xb yb

/-- Blank screen of the given dimensions, as the engine allocates
`window_buffer` (lib.rs:1490-1493): every cell defaulted. -/
def mkScreen (w h : Nat) : Screen :=
  ⟨(w : Int), (h : Int), List.replicate (w * h) ⟨0, 0⟩⟩

/-- Rust `Sprite` (lib.rs:627-634): `width`/`height` are `usize`, the grids
hold u16 glyph codes and color attributes. -/
structure Sprite where
  width : Nat
  height : Nat
  glyphs : List Nat
  colors : List Nat
deriving DecidableEq, Repr

/-- Little-endian byte list of `n` truncated to u16 (`u16::to_le_bytes`). -/
def toLE2 (n : Nat) : List Nat :=
  [n % 256, n / 256 % 256]

/-- Little-endian byte list of `n` truncated to u32 (`u32::to_le_bytes`);
byte `k` is `n / 256 ^ k % 256`, which coincides with the `as u32`
truncation the Rust code applies before writing. -/
def toLE4 (n : Nat) : List Nat :=
  [n % 256, n / 256 % 256, n / 65536 % 256, n / 16777216 % 256]

/-- Rust `u32::from_le_bytes` on four bytes. -/
def leU32 (b0 b1 b2 b3 : Nat) : Nat :=
  b0 + 256 * b1 + 65536 * b2 + 16777216 * b3

/-- Byte stream produced by `Sprite::save_to_file` (lib.rs:693-706):
`(width as u32)` LE, `(height as u32)` LE, then every color and every glyph
as u16 LE. -/
def spriteToBytes (s : Sprite) : List Nat :=
  toLE4 s.width ++ toLE4 s.height ++
    (s.colors.map toLE2).flatten ++ (s.glyphs.map toLE2).flatten

/-- Result of a parse in which a Rust panic (out-of-range slice index or
failed huge allocation) is a distinct outcome from a returned `Err`. -/
inductive ParseResult (α : Type) where
  | ok (val : α)
  | err (msg : String)
  | panic
deriving DecidableEq, Repr

/-- Read loop of `Sprite::from_file` (lib.rs:671-682): reads `count` u16
values from consecutive 2-byte little-endian slices starting at `offset`;
an out-of-range slice (`buf[offset..offset + 2]`) is a panic. -/
def readU16s (buf : List Nat) : Nat → Nat → ParseResult (List Nat × Nat)
  | offset, 0 => .ok ([], offset)
  | offset, count + 1 =>
    if offset + 2 ≤ buf.length then
      match readU16s buf (offset + 2) count with
      | .ok (vs, off) => .ok ((buf.getD offset 0 + 256 * buf.getD (offset + 1) 0) :: vs, off)
      | .err m => .err m
      | .panic => .panic
    else .panic

/-- Rust `Sprite::from_file` (lib.rs:650-690) after the raw file read:
length check, u32 LE header, `checked_mul` overflow check (usize, 64-bit),
computed size `8 + 2 * count * 2` with wrapping usize arithmetic
(release-mode semantics), truncation check, then the two u16 read loops
(colors first, then glyphs). -/
def spriteFromBytes (buf : List Nat) : ParseResult Sprite :=
  if buf.length < 8 then .err "sprite file too small"
  else
    let width := leU32 (buf.getD 0 0) (buf.getD 1 0) (buf.getD 2 0) (buf.getD 3 0)
    let height := leU32 (buf.getD 4 0) (buf.getD 5 0) (buf.getD 6 0) (buf.getD 7 0)
    if 2 ^ 64 ≤ width * height then .err "sprite dimensions overflow"
    else
      let count := width * height
      let expected := (8 + 4 * count % 2 ^ 64) % 2 ^ 64
      if buf.length < expected then .err "sprite file truncated"
      else
        match readU16s buf 8 count with
        | .ok (colors, off) =>
          match readU16s buf off count with
          | .ok (glyphs, _) => .ok ⟨width, height, glyphs, colors⟩
          | .err m => .err m
          | .panic => .panic
        | .err m => .err m
        | .panic => .panic

/-- Rust `PlayingSound` (lib.rs:782-785): a cloned PCM buffer of i16 samples
and a cursor. -/
structure PlayingSound where
  data : List Int
  cursor : Nat
deriving DecidableEq, Repr

/-- Rust `PlayingNote` (lib.rs:787-794).  The `f32` fields are modelled as
exact rationals; none of the theorems below depend on their values, only on
which notes exist. -/
structure PlayingNote where
  freq : ℚ
  phase : ℚ
  amplitude : ℚ
  targetAmp : ℚ
  step : ℚ
  active : Bool
deriving DecidableEq, Repr

/-- Rust `AudioCommand` (lib.rs:773-780). -/
inductive AudioCommand where
  | loadSample (path : String)
  | playSample (path : String)
  | loadSampleFromBuffer (key : String) (buffer : List Int)
  | noteOn (freq : ℚ)
  | noteOff (freq : ℚ)
  | quit
deriving DecidableEq

/-- Mutable state of the audio worker loop (lib.rs:848-850): the sample
library (`HashMap<String, Vec<i16>>`, modelled as an association list whose
most recent insertion shadows older entries, matching `insert`/`get`), the
active sounds and the active notes. -/
structure AudioState where
  samples : List (String × List Int)
  sounds : List PlayingSound
  notes : List PlayingNote
deriving DecidableEq

/-- Outcome of handling one drained command: the worker either keeps
running with a new state or leaves the loop (`AudioCommand::Quit`). -/
inductive StepResult where
  | running (st : AudioState)
  | halted
deriving DecidableEq

/-- Fixed per-sample amplitude step of the 50 ms attack ramp:
`1.0 / (44100.0 * (50.0 / 1000.0))` (lib.rs:885), as an exact rational. -/
def attackStep : ℚ := 1 / 2205

/-- Release envelope redirection applied to each active matching note on
`NoteOff` (lib.rs:909-915); the f32 epsilon tolerance is modelled as the
exact rational `2 ^ (-23)`. -/
def releaseNote (f : ℚ) (n : PlayingNote) : PlayingNote :=
  if |n.freq - f| < 1 / 2 ^ 23 ∧ n.active = true then
    { n with targetAmp := 0, step := -(1 / 2205) }
  else n

/-- Command handling of the audio worker's drain loop (lib.rs:853-918).
Modelled from the spec for the externals: WAV container parsing is an
external collaborator (spec section 1), supplied here as the oracle
`loadWav`; the short attack/release bursts sent straight to the output
device (device output, not worker state) are omitted. -/
def processCommand (loadWav : String → Option (List Int)) (st : AudioState) :
    AudioCommand → StepResult
  | .loadSample path =>
    match loadWav path with
    | some data => .running { st with samples := (path, data) :: st.samples }
    | none => .running st
  | .loadSampleFromBuffer key buffer =>
    .running { st with samples := (key, buffer) :: st.samples }
  | .playSample path =>
    match st.samples.lookup path with
    | some data => .running { st with sounds := st.sounds ++ [⟨data, 0⟩] }
    | none => .running st
  | .noteOn freq =>
    .running { st with notes := st.notes ++ [⟨freq, 0, 0, 1, attackStep, true⟩] }
  | .noteOff freq =>
    .running { st with notes := st.notes.map (releaseNote freq) }
  | .quit => .halted

/-- Rust `CHUNK_SIZE` (lib.rs:769). -/
def CHUNK : Nat := 512

/-- Wrapping i32 addition (release-mode `+=` into the `Vec<i32>` mix). -/
def wrapAddI32 (a b : Int) : Int :=
  (a + b + 2 ^ 31) % 2 ^ 32 - 2 ^ 31

/-- Per-sound pass of the mixing step (lib.rs:923-932): for each chunk frame,
if `cursor + 1 < data.len()` add the two samples into the stereo mix and
advance the cursor by 2.  Fuel is the frame index countdown from `CHUNK`. -/
def mixSoundLoop (data : List Int) : Nat → Nat → List Int → Nat → List Int × Nat
  | 0, _, mix, cursor => (mix, cursor)
  | n + 1, i, mix, cursor =>
    if cursor + 1 < data.length then
      let m1 := mix.set (i * 2) (wrapAddI32 (mix.getD (i * 2) 0) (data.getD cursor 0))
      let m2 := m1.set (i * 2 + 1) (wrapAddI32 (m1.getD (i * 2 + 1) 0) (data.getD (cursor + 1) 0))
      mixSoundLoop data n (i + 1) m2 (cursor + 2)
    else mixSoundLoop data n (i + 1) mix cursor

/-- Per-note pass of the mixing step (lib.rs:937-962).  Modelled from the
spec for the f32 part: the sine/envelope synthesis producing the already
cast i16 value `si` at frame `i` is abstracted as the integer sequence
`noteSample`; the i32 accumulation into both stereo channels is exact. -/
def mixNoteLoop (noteSample : Nat → Int) : Nat → Nat → List Int → List Int
  | 0, _, mix => mix
  | n + 1, i, mix =>
    let si := noteSample i
    let m1 := mix.set (i * 2) (wrapAddI32 (mix.getD (i * 2) 0) si)
    let m2 := m1.set (i * 2 + 1) (wrapAddI32 (m1.getD (i * 2 + 1) 0) si)
    mixNoteLoop noteSample n (i + 1) m2

/-- Rust clamp to the 16-bit signed range (lib.rs:966):
`s.clamp(i16::MIN as i32, i16::MAX as i32)`. -/
def clampI16 (s : Int) : Int :=
  max (-32768) (min 32767 s)

/-- One render step of the audio worker (lib.rs:921-967): zeroed i32 mix of
`CHUNK` stereo frames, the sound pass, the note pass (one abstracted sample
sequence per active note), then the final clamp into i16 range. -/
def renderChunk (sounds : List PlayingSound) (noteSamples : List (Nat → Int)) : List Int :=
  let mix0 : List Int := List.replicate (CHUNK * 2) 0
  let mixA := sounds.foldl (fun mix snd => (mixSoundLoop snd.data CHUNK 0 mix snd.cursor).1) mix0
  let mixB := noteSamples.foldl (fun mix f => mixNoteLoop f CHUNK 0 mix) mixA
  mixB.map clampI16

/-- Per-key state of the input machine: `key_old_state[i]` (u16),
`key_new_state[i]`, and the three derived flags. -/
structure KeyState where
  newState : Nat
  oldState : Nat
  pressed : Bool
  released : Bool
  held : Bool
deriving DecidableEq, Repr

/-- Per-index body of `ConsoleGameEngine::update_keys` (lib.rs:1504-1523):
`raw` is the freshly sampled `GetAsyncKeyState` value (u16); bit 15 is the
"currently down" bit. -/
def updateKey (ks : KeyState) (raw : Nat) : KeyState :=
  if raw ≠ ks.oldState then
    if raw.testBit 15 then
      { newState := raw, oldState := raw, pressed := !ks.held, released := false, held := true }
    else
      { newState := raw, oldState := raw, pressed := false, released := true, held := false }
  else
    { newState := raw, oldState := raw, pressed := false, released := false, held := ks.held }

/-- Console input records relevant to `update_mouse` (lib.rs:1537-1559):
focus events, button-state mouse events (`dwEventFlags == 0`), move events,
and everything the source ignores. -/
inductive InputRecord where
  | focusEvent (setFocus : Bool)
  | mouseButtons (buttonState : Nat)
  | mouseMoved (mx my : Int)
  | otherEvent
deriving DecidableEq

/-- Mouse-side state of the input machine (five buttons, position, focus). -/
structure MouseState where
  newState : Fin 5 → Bool
  oldState : Fin 5 → Bool
  pressed : Fin 5 → Bool
  released : Fin 5 → Bool
  held : Fin 5 → Bool
  mx : Int
  my : Int
  inFocus : Bool

/-- Folding one read input record into the mouse state (lib.rs:1537-1559):
`dwButtonState & (1 << m) != 0` is bit `m` of the mask. -/
def applyRecord (ms : MouseState) : InputRecord → MouseState
  | .focusEvent b => { ms with inFocus := b }
  | .mouseButtons mask => { ms with newState := fun m => mask.testBit m.val }
  | .mouseMoved nx ny => { ms with mx := nx, my := ny }
  | .otherEvent => ms

/-- Edge-derivation loop over the five buttons (lib.rs:1561-1576). -/
def edgeUpdate (ms : MouseState) : MouseState :=
  { ms with
    pressed := fun m => (ms.newState m != ms.oldState m) && ms.newState m
    released := fun m => (ms.newState m != ms.oldState m) && !ms.newState m
    held := fun m => if ms.newState m != ms.oldState m then ms.newState m else ms.held m
    oldState := fun m => ms.newState m }

/-- Rust `ConsoleGameEngine::update_mouse` (lib.rs:1525-1577): when no console
input events are pending it returns immediately, leaving every field —
including `mouse_pressed`/`mouse_released` — unchanged; otherwise it folds
the (at most 32) read records and then derives the button edges. -/
def updateMouse (ms : MouseState) (records : List InputRecord) : MouseState :=
  if records.isEmpty then ms
  else edgeUpdate (records.foldl applyRecord ms)

/-- Initial mouse state at engine construction (lib.rs:1317 and the
all-false button arrays). -/
def mouseInit : MouseState :=
  { newState := fun _ => false, oldState := fun _ => false, pressed := fun _ => false,
    released := fun _ => false, held := fun _ => false, mx := 0, my := 0, inFocus := true }

/-- Modelled from the spec (section 4.2 Line and section 8): Bresenham's
original first-octant algorithm — decision variable `2 * dy - dx`, minor
axis advanced on a non-negative decision value — giving the canonical
deterministic pixel sequence the spec requires, for `0 ≤ dy ≤ dx`. -/
def bresAux (dx dy : Int) : Nat → Int → Int → Int → List (Int × Int)
  | 0, _, _, _ => []
  | n + 1, x, y, d =>
    if 0 ≤ d then (x + 1, y + 1) :: bresAux dx dy n (x + 1) (y + 1) (d + 2 * (dy - dx))
    else (x + 1, y) :: bresAux dx dy n (x + 1) y (d + 2 * dy)

/-- Canonical first-octant Bresenham pixel sequence from `(x1, y1)` to
`(x2, y2)`, modelled from the spec's words (not from the repository code). -/
def canonicalBresenham (x1 y1 x2 y2 : Int) : List (Int × Int) :=
  (x1, y1) :: bresAux (x2 - x1) (y2 - y1) (x2 - x1).toNat x1 y1 (2 * (y2 - y1) - (x2 - x1))

/-- Concrete 2-by-2 blank screen. -/
def scr2 : Screen := mkScreen 2 2

/-- Concrete 6-by-6 blank screen. -/
def scr6 : Screen := mkScreen 6 6

/-- Concrete 8-by-8 blank screen. -/
def scr8 : Screen := mkScreen 8 8

/-- Mouse state after one input-update step that processes a press of
button 0 (`dwButtonState` bit 0 set). -/
def mouseAfterClick : MouseState := updateMouse mouseInit [.mouseButtons 1]

/-- Mouse state after a further input-update step in which no console input
events are pending. -/
def mouseAfterIdle : MouseState := updateMouse mouseAfterClick []

/-- Sprite whose width does not fit in the u32 header field. -/
def bigSprite : Sprite := ⟨2 ^ 32, 0, [], []⟩

/-- An 8-byte sprite file consisting only of the header
`width = 2 ^ 31, height = 2 ^ 31`: `4 * (width * height)` is `2 ^ 64`,
which wraps to 0 in the usize size computation. -/
def badHeader : List Nat := toLE4 (2 ^ 31) ++ toLE4 (2 ^ 31)

/-- Empty audio worker state. -/
def audioInit : AudioState := ⟨[], [], []⟩

/-! Helper lemmas shared by the claim theorems. -/

lemma getD_set_self {α : Type} (l : List α) (i : Nat) (a d : α) (h : i < l.length) :
    (l.set i a).getD i d = a := by
  induction l generalizing i with
  | nil => simp at h
  | cons b t ih =>
    cases i with
    | zero => rfl
    | succ n =>
      simp only [List.set]
      rw [List.getD_cons_succ]
      exact ih n (by simpa using h)

lemma getD_set_ne {α : Type} (l : List α) (i j : Nat) (a d : α) (h : i ≠ j) :
    (l.set i a).getD j d = l.getD j d := by
  induction l generalizing i j with
  | nil => simp
  | cons b t ih =>
    cases i with
    | zero =>
      cases j with
      | zero => exact absurd rfl h
      | succ m => simp only [List.set]; rw [List.getD_cons_succ, List.getD_cons_succ]
    | succ n =>
      cases j with
      | zero => simp only [List.set]; rw [List.getD_cons_zero, List.getD_cons_zero]
      | succ m =>
        simp only [List.set]
        rw [List.getD_cons_succ, List.getD_cons_succ]
        exact ih n m (by omega)

lemma getD_zero_mem {α : Type} (l : List α) (d : α) (h : 0 < l.length) : l.getD 0 d ∈ l := by
  cases l with
  | nil => simp at h
  | cons a t => rw [List.getD_cons_zero]; exact List.mem_cons_self a t

lemma mixSoundLoop_length (data : List Int) :
    ∀ (n i : Nat) (mix : List Int) (cur : Nat),
      (mixSoundLoop data n i mix cur).1.length = mix.length := by
  intro n
  induction n with
  | zero => intro i mix cur; rfl
  | succ k ih =>
    intro i mix cur
    unfold mixSoundLoop
    by_cases h : cur + 1 < data.length
    · rw [if_pos h, ih]
      simp
    · rw [if_neg h, ih]

lemma mixNoteLoop_length (f : Nat → Int) :
    ∀ (n i : Nat) (mix : List Int), (mixNoteLoop f n i mix).length = mix.length := by
  intro n
  induction n with
  | zero => intro i mix; rfl
  | succ k ih =>
    intro i mix
    unfold mixNoteLoop
    rw [ih]
    simp

lemma renderChunk_length (sounds : List PlayingSound) (noteSamples : List (Nat → Int)) :
    (renderChunk sounds noteSamples).length = CHUNK * 2 := by
  unfold renderChunk
  rw [List.length_map]
  have hB : ∀ (l : List (Nat → Int)) (mix : List Int),
      (l.foldl (fun mix f => mixNoteLoop f CHUNK 0 mix) mix).length = mix.length := by
    intro l
    induction l with
    | nil => intro mix; rfl
    | cons f t ih => intro mix; rw [List.foldl_cons, ih, mixNoteLoop_length]
  have hA : ∀ (l : List PlayingSound) (mix : List Int),
      (l.foldl (fun mix snd => (mixSoundLoop snd.data CHUNK 0 mix snd.cursor).1) mix).length
        = mix.length := by
    intro l
    induction l with
    | nil => intro mix; rfl
    | cons s t ih => intro mix; rw [List.foldl_cons, ih, mixSoundLoop_length]
  rw [hB, hA, List.length_replicate]

/-! Claim theorems. -/

/-- C3: for every key, if the sampled raw states over three consecutive
input-update frames are down, down, up, starting from a steady-up state
(not held, previous raw sample up), then the derived flags are exactly
pressed and held on frame 1, held only on frame 2, and released with held
cleared on frame 3. -/
theorem c3_key_down_down_up_flags (s0 : KeyState) (r1 r2 r3 : Nat)
    (hheld : s0.held = false) (hup : s0.oldState.testBit 15 = false)
    (h1 : r1.testBit 15 = true) (h2 : r2.testBit 15 = true)
    (h3 : r3.testBit 15 = false) :
    ((updateKey s0 r1).pressed = true ∧ (updateKey s0 r1).held = true)
    ∧ ((updateKey (updateKey s0 r1) r2).pressed = false
        ∧ (updateKey (updateKey s0 r1) r2).held = true)
    ∧ ((updateKey (updateKey (updateKey s0 r1) r2) r3).released = true
        ∧ (updateKey (updateKey (updateKey s0 r1) r2) r3).held = false) := by
  have hne1 : r1 ≠ s0.oldState := by
    intro h
    rw [h, hup] at h1
    exact Bool.false_ne_true h1
  have hs1 : updateKey s0 r1 = ⟨r1, r1, true, false, true⟩ := by
    simp [updateKey, hne1, h1, hheld]
  have hs2 : updateKey (updateKey s0 r1) r2 = ⟨r2, r2, false, false, true⟩ := by
    rw [hs1]
    by_cases hr : r2 = r1
    · simp [updateKey, hr]
    · simp [updateKey, hr, h2]
  have hne3 : r3 ≠ r2 := by
    intro h
    rw [h, h2] at h3
    exact Bool.noConfusion h3
  have hs3 : updateKey (updateKey (updateKey s0 r1) r2) r3 = ⟨r3, r3, false, true, false⟩ := by
    rw [hs2]
    simp [updateKey, hne3, h3]
  refine ⟨?_, ?_, ?_⟩
  · rw [hs1]; exact ⟨rfl, rfl⟩
  · rw [hs2]; exact ⟨rfl, rfl⟩
  · rw [hs3]; exact ⟨rfl, rfl⟩

/-- Witness for C3 at a concrete input: raw samples 0x8000, 0x8000, 0 from
the all-clear initial key state. -/
theorem c3_key_down_down_up_flags_witness :
    ((updateKey ⟨0, 0, false, false, false⟩ 32768).pressed = true
      ∧ (updateKey ⟨0, 0, false, false, false⟩ 32768).held = true)
    ∧ ((updateKey (updateKey ⟨0, 0, false, false, false⟩ 32768) 32768).pressed = false
        ∧ (updateKey (updateKey ⟨0, 0, false, false, false⟩ 32768) 32768).held = true)
    ∧ ((updateKey (updateKey (updateKey ⟨0, 0, false, false, false⟩ 32768) 32768) 0).released
          = true
        ∧ (updateKey (updateKey (updateKey ⟨0, 0, false, false, false⟩ 32768) 32768) 0).held
          = false) :=
  c3_key_down_down_up_flags ⟨0, 0, false, false, false⟩ 32768 32768 0 rfl (by decide)
    (by decide) (by decide) (by decide)

/-- C10: handling a `PlaySample` command whose identifier is not in the
sample library leaves the audio worker state entirely unchanged, creates no
`PlayingSound`, and does not panic or halt the worker. -/
theorem c10_playSample_unknown_id_noop (loadWav : String → Option (List Int))
    (st : AudioState) (path : String) (h : st.samples.lookup path = none) :
    processCommand loadWav st (.playSample path) = .running st := by
  simp [processCommand, h]

/-- Witness for C10: playing an identifier that was never loaded, from the
empty worker state. -/
theorem c10_playSample_unknown_id_noop_witness :
    processCommand (fun _ => none) audioInit (.playSample "missing.wav")
      = .running audioInit :=
  c10_playSample_unknown_id_noop (fun _ => none) audioInit "missing.wav" rfl

/-- C9: every sample of the chunk produced by the audio worker's render step
lies in the signed 16-bit range, for any set of active sounds and any number
N of active notes with N at least 1; the accumulated 32-bit mix is clamped
elementwise before emission. -/
theorem c9_render_clamped (sounds : List PlayingSound) (noteSamples : List (Nat → Int))
    (_hN : 1 ≤ noteSamples.length) :
    ∀ v ∈ renderChunk sounds noteSamples, -32768 ≤ v ∧ v ≤ 32767 := by
  intro v hv
  unfold renderChunk at hv
  simp only [List.mem_map] at hv
  obtain ⟨u, hu, rfl⟩ := hv
  unfold clampI16
  exact ⟨le_max_left _ _, max_le (by norm_num) (min_le_left _ _)⟩

/-- Witness for C9: the first emitted sample of a render step with no
sounds and one silent note is within the 16-bit range. -/
theorem c9_render_clamped_witness :
    -32768 ≤ (renderChunk [] [fun _ => 0]).getD 0 0
      ∧ (renderChunk [] [fun _ => 0]).getD 0 0 ≤ 32767 :=
  c9_render_clamped [] [fun _ => 0] (by simp) _
    (getD_zero_mem _ _ (by rw [renderChunk_length]; norm_num [CHUNK]))

lemma foldl_applyRecord_oldState (rs : List InputRecord) :
    ∀ (ms : MouseState) (m : Fin 5),
      (rs.foldl applyRecord ms).oldState m = ms.oldState m := by
  induction rs with
  | nil => intro ms m; rfl
  | cons r t ih =>
    intro ms m
    rw [List.foldl_cons, ih]
    cases r <;> rfl

/-- C4 counterexample: from the initial mouse state, one input-update step
processing a button-0 press sets `pressed[0]`; a second input-update step
with no pending console input events leaves the raw state unchanged from the
previous frame, yet `pressed[0]` is still true after it, contradicting the
claim that an unchanged raw state forces `pressed` and `released` to false
after every input-update step. -/
theorem c4_mouse_pressed_persists :
    (∀ m : Fin 5, mouseAfterIdle.newState m = mouseAfterClick.newState m)
    ∧ (∀ m : Fin 5, mouseAfterIdle.oldState m = mouseAfterIdle.newState m)
    ∧ mouseAfterIdle.pressed 0 = true := by
  refine ⟨fun m => rfl, fun m => ?_, rfl⟩
  show mouseAfterClick.oldState m = mouseAfterClick.newState m
  fin_cases m <;> rfl

/-- C4 amended: after `update_keys`, `pressed` implies `held` and an
unchanged raw sample forces `pressed` and `released` to false, for every
key; the same holds for every mouse button on input-update steps that
process at least one console input event.  A step with no pending events
returns early and leaves the whole mouse state — including stale
`pressed`/`released` flags — unchanged; across such steps the implication
from `pressed` to `held` is still preserved. -/
theorem c4_edge_invariants :
    (∀ (ks : KeyState) (raw : Nat),
        ((updateKey ks raw).pressed = true → (updateKey ks raw).held = true)
        ∧ (raw = ks.oldState →
            (updateKey ks raw).pressed = false ∧ (updateKey ks raw).released = false))
    ∧ (∀ (ms : MouseState) (rs : List InputRecord) (m : Fin 5), rs ≠ [] →
        ((updateMouse ms rs).pressed m = true → (updateMouse ms rs).held m = true)
        ∧ ((updateMouse ms rs).newState m = ms.oldState m →
            (updateMouse ms rs).pressed m = false ∧ (updateMouse ms rs).released m = false))
    ∧ (∀ ms : MouseState, updateMouse ms [] = ms)
    ∧ (∀ (ms : MouseState) (rs : List InputRecord) (m : Fin 5),
        (ms.pressed m = true → ms.held m = true) →
        ((updateMouse ms rs).pressed m = true → (updateMouse ms rs).held m = true)) := by
  have hkey : ∀ (ks : KeyState) (raw : Nat),
      ((updateKey ks raw).pressed = true → (updateKey ks raw).held = true)
      ∧ (raw = ks.oldState →
          (updateKey ks raw).pressed = false ∧ (updateKey ks raw).released = false) := by
    intro ks raw
    by_cases h : raw = ks.oldState
    · simp [updateKey, h]
    · by_cases hb : raw.testBit 15 <;> simp [updateKey, h, hb]
  have hmouse : ∀ (ms : MouseState) (rs : List InputRecord) (m : Fin 5), rs ≠ [] →
      ((updateMouse ms rs).pressed m = true → (updateMouse ms rs).held m = true)
      ∧ ((updateMouse ms rs).newState m = ms.oldState m →
          (updateMouse ms rs).pressed m = false ∧ (updateMouse ms rs).released m = false) := by
    intro ms rs m hrs
    have hne : rs.isEmpty = false := by
      cases rs with
      | nil => exact absurd rfl hrs
      | cons a t => rfl
    have hu : updateMouse ms rs = edgeUpdate (rs.foldl applyRecord ms) := by
      unfold updateMouse
      rw [hne]
      rfl
    rw [hu]
    set f := rs.foldl applyRecord ms with hf
    constructor
    · intro hp
      unfold edgeUpdate at hp ⊢
      simp only at hp ⊢
      have hp2 : (f.newState m != f.oldState m) = true ∧ f.newState m = true := by
        simpa using hp
      rcases hp2 with ⟨hb, hn⟩
      rw [hb]
      simpa using hn
    · intro hraw
      have hold : f.oldState m = ms.oldState m := foldl_applyRecord_oldState rs ms m
      have hnew : f.newState m = f.oldState m := by
        unfold edgeUpdate at hraw
        simp only at hraw
        rw [hraw, hold]
      unfold edgeUpdate
      simp only
      rw [hnew]
      simp
  refine ⟨hkey, hmouse, ?_, ?_⟩
  · intro ms
    rfl
  · intro ms rs m hinv
    cases rs with
    | nil => exact hinv
    | cons a t =>
      exact (hmouse ms (a :: t) m (by simp)).1

/-- Witness for C4 amended at concrete inputs: a no-event step is the
identity on the mouse state, and a key step with an unchanged raw sample
clears `pressed` and `released`. -/
theorem c4_edge_invariants_witness :
    updateMouse mouseInit [] = mouseInit
    ∧ ((updateKey ⟨0, 0, false, false, false⟩ 0).pressed = false
        ∧ (updateKey ⟨0, 0, false, false, false⟩ 0).released = false) :=
  ⟨c4_edge_invariants.2.2.1 mouseInit,
    (c4_edge_invariants.1 ⟨0, 0, false, false, false⟩ 0).2 rfl⟩

/-- C5: the line drawn from (0,0) to (4,2) is exactly the canonical
Bresenham pixel sequence for those endpoints — the original algorithm's
integer decision variable with its standard tie-break (minor axis advances
on a zero decision value) — and no other cell of the buffer is touched.
Determinism holds by construction: the drawn set is a pure function of the
endpoints. -/
theorem c5_line_matches_canonical_bresenham :
    canonicalBresenham 0 0 4 2 = [(0, 0), (1, 1), (2, 1), (3, 2), (4, 2)]
    ∧ ∀ i j : Fin 6, (drawLineWith scr6 0 0 4 2 9 7).cellAt (i.val) (j.val) =
        if ((i.val : Int), (j.val : Int)) ∈ canonicalBresenham 0 0 4 2 then ⟨9, 7⟩
        else ⟨0, 0⟩ := by
  constructor
  · decide
  · decide

/-- C2 failing-input evaluation: filling the triangle (0,0), (4,0), (0,4)
on an 8-by-8 buffer produces exactly the cells with `y ≤ x ≤ 4` — the
triangle (0,0), (4,0), (4,4) — not the claimed set `x + y ≤ 4`: cell (0,1)
is inside the requested triangle but left blank, while cell (4,1) is
outside it but filled. -/
theorem c2_fillTriangle_wrong_pixel_set :
    (∀ i j : Fin 8, (fillTriangleWith scr8 0 0 4 0 0 4 9 7).cellAt (i.val) (j.val) =
        if j.val ≤ i.val ∧ i.val ≤ 4 then ⟨9, 7⟩ else ⟨0, 0⟩)
    ∧ (fillTriangleWith scr8 0 0 4 0 0 4 9 7).cellAt 0 1 = ⟨0, 0⟩
    ∧ (fillTriangleWith scr8 0 0 4 0 0 4 9 7).cellAt 4 1 = ⟨9, 7⟩ := by
  refine ⟨by decide, by decide, by decide⟩

/-- C1 counterexample: `draw_string_with` does not drop off-buffer writes.
On a 2-by-2 screen, drawing the two-character string "ab" at (1,0) writes
one character past the right edge: instead of being dropped, the write
lands on the in-bounds cell (0,1) of the next row; and drawing any
character at the off-buffer coordinate (0,2) panics (out-of-range index)
instead of being a no-op. -/
theorem c1_drawString_overwrites_unrelated_cell :
    drawStringWith scr2 1 0 [97, 98] 7
      = some ⟨2, 2, [⟨0, 0⟩, ⟨97, 7⟩, ⟨98, 7⟩, ⟨0, 0⟩]⟩
    ∧ (drawStringWith scr2 1 0 [97, 98] 7).map (fun e2 => e2.cellAt 0 1)
      ≠ some (scr2.cellAt 0 1)
    ∧ drawStringWith scr2 0 2 [97] 7 = none := by
  refine ⟨by decide, by decide, by decide⟩

/-- C7 counterexample: a sprite whose width does not fit the u32 header
field does not round-trip: `save_to_file` truncates the width to
`width as u32 = 0`, so reloading yields a sprite with width 0 instead of
the original. -/
theorem c7_roundtrip_fails_u32_truncation :
    spriteFromBytes (spriteToBytes bigSprite) = .ok ⟨0, 0, [], []⟩
    ∧ (⟨0, 0, [], []⟩ : Sprite) ≠ bigSprite := by
  refine ⟨by decide, by decide⟩

/-- C8 failing-input evaluation: the 8-byte input consisting only of the
header `width = height = 2 ^ 31` has byte length far below the true
computed size `8 + 4 * width * height`, yet `from_file` does not return an
error:
`checked_mul` passes (`2 ^ 62 < 2 ^ 64`), the unchecked usize computation
`8 + 2 * count * 2` wraps to 8, the truncation check therefore succeeds,
and the first 2-byte slice read at offset 8 panics. -/
theorem c8_wrapped_size_check_panics :
    badHeader.length = 8
    ∧ badHeader.length < 8 + 4 * (2 ^ 31 * 2 ^ 31)
    ∧ spriteFromBytes badHeader = .panic := by
  refine ⟨by decide, by decide, ?_⟩
  decide

lemma rowMajor_lt (w h x y : Int) (hx : 0 ≤ x) (hxw : x < w) (hy : 0 ≤ y) (hyh : y < h) :
    (y * w + x).toNat < (w * h).toNat := by
  have hw : 0 ≤ w := le_trans hx hxw.le
  have h0 : 0 ≤ y * w + x := add_nonneg (mul_nonneg hy hw) hx
  have h1 : y * w + x < w * h := by nlinarith
  exact (Int.toNat_lt_toNat (lt_of_le_of_lt h0 h1)).mpr h1

lemma rowMajor_inj (w x y i j : Int) (hx : 0 ≤ x) (hxw : x < w) (hy : 0 ≤ y)
    (hi : 0 ≤ i) (hiw : i < w) (hj : 0 ≤ j) (hne : ¬(i = x ∧ j = y)) :
    (j * w + i).toNat ≠ (y * w + x).toNat := by
  intro heq
  have hw : 0 ≤ w := le_trans hx hxw.le
  have h0a : 0 ≤ j * w + i := add_nonneg (mul_nonneg hj hw) hi
  have h0b : 0 ≤ y * w + x := add_nonneg (mul_nonneg hy hw) hx
  have heqz : j * w + i = y * w + x := by
    have h2 := congrArg (fun n : Nat => (n : Int)) heq
    simpa [Int.toNat_of_nonneg h0a, Int.toNat_of_nonneg h0b] using h2
  rcases lt_trichotomy j y with hlt | heqj | hgt
  · have h2 : (j + 1) * w ≤ y * w :=
      mul_le_mul_of_nonneg_right (by omega) hw
    rw [add_mul, one_mul] at h2
    linarith
  · have hix : i = x := by
      rw [heqj] at heqz
      linarith
    exact hne ⟨hix, heqj⟩
  · have h2 : (y + 1) * w ≤ j * w :=
      mul_le_mul_of_nonneg_right (by omega) hw
    rw [add_mul, one_mul] at h2
    linarith

/-- C1 amended: the single-cell writer `draw_with` — through which the
lines, triangles, circles, rectangles and sprite blits perform every buffer
write — silently drops writes whose destination lies outside the
width-by-height buffer (no error, no panic, no other cell changed), writes
exactly the addressed cell when in bounds, and never modifies any other
in-bounds cell.  The string-drawing operations are excluded: they index the
buffer unchecked (see the counterexample). -/
theorem c1_drawWith_clips_silently (e : Screen) (x y : Int) (c col : Nat)
    (hlen : e.buffer.length = (e.width * e.height).toNat) :
    (¬ e.inBounds x y → drawWith e x y c col = e)
    ∧ (e.inBounds x y → (drawWith e x y c col).cellAt x y = ⟨c, col⟩)
    ∧ (∀ i j : Int, e.inBounds i j → ¬(i = x ∧ j = y) →
        (drawWith e x y c col).cellAt i j = e.cellAt i j) := by
  refine ⟨?_, ?_, ?_⟩
  · intro h
    unfold Screen.inBounds at h
    unfold drawWith
    rw [if_neg h]
  · intro h
    obtain ⟨hx, hxw, hy, hyh⟩ := h
    unfold drawWith
    rw [if_pos ⟨hx, hxw, hy, hyh⟩]
    unfold Screen.cellAt
    exact getD_set_self _ _ _ _ (by rw [hlen]; exact rowMajor_lt _ _ _ _ hx hxw hy hyh)
  · intro i j hij hne
    obtain ⟨hi, hiw, hj, hjh⟩ := hij
    by_cases h : e.inBounds x y
    · obtain ⟨hx, hxw, hy, hyh⟩ := h
      unfold drawWith
      rw [if_pos ⟨hx, hxw, hy, hyh⟩]
      unfold Screen.cellAt
      exact getD_set_ne _ _ _ _ _
        (Ne.symm (rowMajor_inj e.width x y i j hx hxw hy hi hiw hj hne))
    · unfold Screen.inBounds at h
      unfold drawWith
      rw [if_neg h]

/-- Witness for C1 amended on the concrete 2-by-2 screen: a fully
off-buffer write is the identity, an in-bounds write stores the cell, and
the unrelated in-bounds cell (0,0) is untouched by a write to (1,1). -/
theorem c1_drawWith_clips_silently_witness :
    drawWith scr2 5 5 1 2 = scr2
    ∧ (drawWith scr2 1 1 1 2).cellAt 1 1 = ⟨1, 2⟩
    ∧ (drawWith scr2 1 1 1 2).cellAt 0 0 = scr2.cellAt 0 0 :=
  ⟨(c1_drawWith_clips_silently scr2 5 5 1 2 (by decide)).1 (by decide),
    (c1_drawWith_clips_silently scr2 1 1 1 2 (by decide)).2.1 (by decide),
    (c1_drawWith_clips_silently scr2 1 1 1 2 (by decide)).2.2 0 0 (by decide) (by decide)⟩

lemma flatten_map_toLE2_length (vs : List Nat) :
    ((vs.map toLE2).flatten).length = 2 * vs.length := by
  induction vs with
  | nil => rfl
  | cons v t ih =>
    simp only [List.map_cons, List.flatten_cons, List.length_append, ih, toLE2,
      List.length_cons, List.length_nil]
    omega

lemma getD_append_offset {α : Type} (l1 l2 : List α) (n : Nat) (d : α) :
    (l1 ++ l2).getD (l1.length + n) d = l2.getD n d := by
  induction l1 with
  | nil => simp
  | cons a t ih =>
    simp only [List.cons_append, List.length_cons]
    rw [show t.length + 1 + n = (t.length + n) + 1 by omega, List.getD_cons_succ]
    exact ih

lemma readU16s_ok (vs : List Nat) :
    ∀ pre rest : List Nat, (∀ v ∈ vs, v < 2 ^ 16) →
      readU16s (pre ++ ((vs.map toLE2).flatten ++ rest)) pre.length vs.length
        = .ok (vs, pre.length + 2 * vs.length) := by
  induction vs with
  | nil =>
    intro pre rest hv
    simp [readU16s]
  | cons v tl ih =>
    intro pre rest hv
    have hv0 : v < 2 ^ 16 := hv v (List.mem_cons_self v tl)
    have hB : pre ++ (((v :: tl).map toLE2).flatten ++ rest)
        = (pre ++ [v % 256, v / 256 % 256]) ++ ((tl.map toLE2).flatten ++ rest) := by
      simp [toLE2]
    have hle : pre.length + 2 ≤ (pre ++ (((v :: tl).map toLE2).flatten ++ rest)).length := by
      rw [hB]
      simp only [List.length_append, List.length_cons, List.length_nil]
      omega
    have hrec := ih (pre ++ [v % 256, v / 256 % 256]) rest
      (fun u hu => hv u (List.mem_cons_of_mem _ hu))
    rw [← hB] at hrec
    simp only [List.length_append, List.length_cons, List.length_nil] at hrec
    have e0 : (pre ++ (((v :: tl).map toLE2).flatten ++ rest)).getD pre.length 0 = v % 256 := by
      simpa [toLE2] using
        getD_append_offset pre (((v :: tl).map toLE2).flatten ++ rest) 0 0
    have e1 : (pre ++ (((v :: tl).map toLE2).flatten ++ rest)).getD (pre.length + 1) 0
        = v / 256 % 256 := by
      simpa [toLE2] using
        getD_append_offset pre (((v :: tl).map toLE2).flatten ++ rest) 1 0
    simp only [List.length_cons, readU16s, hle, if_true, if_pos hle]
    rw [show pre.length + (0 + 1 + 1) = pre.length + 2 by omega] at hrec
    rw [hrec]
    rw [e0, e1]
    rw [show v % 256 + 256 * (v / 256 % 256) = v by omega]
    rw [show pre.length + 2 + 2 * tl.length = pre.length + 2 * (tl.length + 1) by omega]

/-- C7 amended: every well-formed sprite — grids of length
`width * height` holding u16 values, as the Rust `Vec<u16>` fields and all
sprite constructors guarantee — whose width and height fit the u32 header
fields round-trips exactly through the binary sprite format: writing with
`save_to_file` and parsing the bytes back with `from_file` returns a sprite
with identical width, height, glyph grid and color grid. -/
theorem c7_sprite_roundtrip (s : Sprite) (hw : s.width < 2 ^ 32) (hh : s.height < 2 ^ 32)
    (hgl : s.glyphs.length = s.width * s.height)
    (hcl : s.colors.length = s.width * s.height)
    (hgv : ∀ v ∈ s.glyphs, v < 2 ^ 16) (hcv : ∀ v ∈ s.colors, v < 2 ^ 16) :
    spriteFromBytes (spriteToBytes s) = .ok s := by
  have hB : spriteToBytes s
      = s.width % 256 :: s.width / 256 % 256 :: s.width / 65536 % 256
        :: s.width / 16777216 % 256 :: s.height % 256 :: s.height / 256 % 256
        :: s.height / 65536 % 256 :: s.height / 16777216 % 256
        :: ((s.colors.map toLE2).flatten ++ (s.glyphs.map toLE2).flatten) := rfl
  have hcb : ((s.colors.map toLE2).flatten).length = 2 * (s.width * s.height) := by
    rw [flatten_map_toLE2_length, hcl]
  have hgb : ((s.glyphs.map toLE2).flatten).length = 2 * (s.width * s.height) := by
    rw [flatten_map_toLE2_length, hgl]
  have hlenB : (spriteToBytes s).length = 8 + 4 * (s.width * s.height) := by
    rw [hB]
    simp only [List.length_cons, List.length_append, hcb, hgb]
    omega
  have g0 : (spriteToBytes s).getD 0 0 = s.width % 256 := by rw [hB]; rfl
  have g1 : (spriteToBytes s).getD 1 0 = s.width / 256 % 256 := by rw [hB]; rfl
  have g2 : (spriteToBytes s).getD 2 0 = s.width / 65536 % 256 := by rw [hB]; rfl
  have g3 : (spriteToBytes s).getD 3 0 = s.width / 16777216 % 256 := by rw [hB]; rfl
  have g4 : (spriteToBytes s).getD 4 0 = s.height % 256 := by rw [hB]; rfl
  have g5 : (spriteToBytes s).getD 5 0 = s.height / 256 % 256 := by rw [hB]; rfl
  have g6 : (spriteToBytes s).getD 6 0 = s.height / 65536 % 256 := by rw [hB]; rfl
  have g7 : (spriteToBytes s).getD 7 0 = s.height / 16777216 % 256 := by rw [hB]; rfl
  have hwv : leU32 (s.width % 256) (s.width / 256 % 256) (s.width / 65536 % 256)
      (s.width / 16777216 % 256) = s.width := by
    unfold leU32
    omega
  have hhv : leU32 (s.height % 256) (s.height / 256 % 256) (s.height / 65536 % 256)
      (s.height / 16777216 % 256) = s.height := by
    unfold leU32
    omega
  have hprod : s.width * s.height < 2 ^ 64 := by
    calc s.width * s.height ≤ s.width * (2 ^ 32 - 1) :=
          Nat.mul_le_mul_left _ (by omega)
      _ < 2 ^ 64 := by
          have : s.width * (2 ^ 32 - 1) ≤ (2 ^ 32 - 1) * (2 ^ 32 - 1) :=
            Nat.mul_le_mul_right _ (by omega)
          omega
  have r1 : readU16s (spriteToBytes s) 8 (s.width * s.height)
      = .ok (s.colors, 8 + 2 * (s.width * s.height)) := by
    have h := readU16s_ok s.colors
      [s.width % 256, s.width / 256 % 256, s.width / 65536 % 256, s.width / 16777216 % 256,
        s.height % 256, s.height / 256 % 256, s.height / 65536 % 256, s.height / 16777216 % 256]
      ((s.glyphs.map toLE2).flatten) hcv
    simp only [List.length_cons, List.length_nil] at h
    rw [hcl] at h
    rw [hB]
    exact h
  have r2 : readU16s (spriteToBytes s) (8 + 2 * (s.width * s.height)) (s.width * s.height)
      = .ok (s.glyphs, 8 + 2 * (s.width * s.height) + 2 * (s.width * s.height)) := by
    have h := readU16s_ok s.glyphs
      (([s.width % 256, s.width / 256 % 256, s.width / 65536 % 256, s.width / 16777216 % 256,
          s.height % 256, s.height / 256 % 256, s.height / 65536 % 256,
          s.height / 16777216 % 256] : List Nat) ++ (s.colors.map toLE2).flatten)
      [] hgv
    rw [List.append_nil] at h
    rw [List.append_assoc] at h
    simp only [List.length_append, List.length_cons, List.length_nil, hcb] at h
    rw [hgl] at h
    rw [hB]
    have harith : (0 + 1 + 1 + 1 + 1 + 1 + 1 + 1 + 1 : Nat) + 2 * (s.width * s.height)
        = 8 + 2 * (s.width * s.height) := by omega
    rw [harith] at h
    exact h
  unfold spriteFromBytes
  rw [if_neg (by omega : ¬ (spriteToBytes s).length < 8)]
  rw [g0, g1, g2, g3, g4, g5, g6, g7, hwv, hhv]
  rw [if_neg (by omega : ¬ 2 ^ 64 ≤ s.width * s.height)]
  rw [if_neg (show ¬ (spriteToBytes s).length
      < (8 + 4 * (s.width * s.height) % 2 ^ 64) % 2 ^ 64 by
    have h1 : 4 * (s.width * s.height) % 2 ^ 64 ≤ 4 * (s.width * s.height) :=
      Nat.mod_le _ _
    have h2 : (8 + 4 * (s.width * s.height) % 2 ^ 64) % 2 ^ 64
        ≤ 8 + 4 * (s.width * s.height) % 2 ^ 64 := Nat.mod_le _ _
    omega)]
  simp only [r1]
  simp only [r2]

/-- Witness for C7 amended: a concrete 2-by-1 sprite with distinct glyph
and color values round-trips to itself. -/
theorem c7_sprite_roundtrip_witness :
    spriteFromBytes (spriteToBytes ⟨2, 1, [65, 66], [3, 4]⟩)
      = .ok ⟨2, 1, [65, 66], [3, 4]⟩ :=
  c7_sprite_roundtrip ⟨2, 1, [65, 66], [3, 4]⟩ (by decide) (by decide) rfl rfl
    (by decide) (by decide)

end RustyCGE
